import Mathlib

/-
Verification development for the Hylo AST explorer webview
(hylo-lang/vscode-hylo).

The embedding models `src/webview/types.ts` (node store, node variant
model, source-site resolver), the webview script (tree projection and the
event listeners of `ASTExplorerView`), and the host-side message handler
of `ASTExplorerViewProvider` together with `toVscodeRange`.

JavaScript runtime behaviour is modelled explicitly:
- array indexing `a[i]` yields `undefined` when `i` is out of range
  (including negative); this is `Option.none` here (`listGetJS`);
- property access or the `in` operator applied to `undefined` throws a
  `TypeError`; computations that can throw return `Except Err _` and the
  thrown JS exception is an `Err` value;
- `JSON.parse` failures are `Err.syntaxError`;
- the error with message `Expected` plus the key, thrown by the `asX`
  accessors, is `Err.expected key`;
- the render functions of the webview are mutually recursive and need not
  terminate on cyclic snapshots; they are modelled with an explicit
  recursion-depth budget (`renderFns f`); exceeding the budget is the
  distinct outcome `Err.outOfFuel` (in a real engine: stack exhaustion).
-/

namespace HyloAst

/-- JS exception classes observable in this code base. -/
inductive Err where
  | typeError
  | expected (key : String)
  | syntaxError
  | outOfFuel
deriving DecidableEq, Repr

/-- NodeID from types.ts: `{ base: number; offset: number }`. -/
structure NodeID where
  base : Int
  offset : Int
deriving DecidableEq, Repr

/-- SourcePosition from types.ts, 1-based in the wire format. -/
structure SourcePosition where
  line : Int
  column : Int
deriving DecidableEq, Repr

/-- SourceRange from types.ts; field `stop` models the TS field `end`
(a reserved word in Lean). -/
structure SourceRange where
  start : SourcePosition
  stop : SourcePosition
  fileUrl : String
deriving DecidableEq, Repr

/-- FunctionDecl payload from types.ts. -/
structure FunctionDecl where
  name : String
  site : SourceRange
  parameters : List NodeID
deriving DecidableEq, Repr

/-- ModuleDecl payload from types.ts. -/
structure ModuleDecl where
  baseName : String
  canAccessBuiltins : Bool
  site : SourceRange
  sources : List NodeID
deriving DecidableEq, Repr

/-- TranslationUnit payload from types.ts. -/
structure TranslationUnit where
  decls : List NodeID
  site : SourceRange
deriving DecidableEq, Repr

/-- ProductTypeDecl payload from types.ts. -/
structure ProductTypeDecl where
  name : String
  site : SourceRange
  identifierSite : SourceRange
deriving DecidableEq, Repr

/-- ParameterDecl payload from types.ts (`label` is optional). -/
structure ParameterDecl where
  site : SourceRange
  label : Option String
  identifier : String
deriving DecidableEq, Repr

/-- ASTNode from types.ts: a union of single-key objects, the key being the
kind tag. The TypeScript union is closed, but the value actually flowing in
at runtime comes from an unchecked `JSON.parse(...) as AST` cast, so a node
object may carry a single key outside the known set; constructor `unknown t`
models exactly those runtime nodes whose single key `t` is NOT one of the
six known tags (theorems touching it carry `knownTag t = false` where the
distinction matters). -/
inductive ASTNode where
  | missing
  | functionDecl (d : FunctionDecl)
  | translationUnit (d : TranslationUnit)
  | moduleDecl (d : ModuleDecl)
  | productTypeDecl (d : ProductTypeDecl)
  | parameterDecl (d : ParameterDecl)
  | unknown (tag : String)
deriving DecidableEq, Repr

/-- AST from types.ts: `{ modulesIds: NodeID[]; nodes: ASTNode[][] }`. -/
structure AST where
  modulesIds : List NodeID
  nodes : List (List ASTNode)
deriving DecidableEq, Repr

/-- JS array indexing `a[i]`: `undefined` (none) when `i` is negative or
past the end. -/
def listGetJS {α : Type} (l : List α) (i : Int) : Option α :=
  if 0 ≤ i then l.get? i.toNat else none

/-- `node(from, id)` from types.ts: `return from.nodes[id.base][id.offset]`.
No bounds check is performed. If `from.nodes[id.base]` is `undefined`
(base out of range), indexing it with `.offset` throws a TypeError; if only
the offset is out of range the expression evaluates to `undefined` (none). -/
def node (ast : AST) (id : NodeID) : Except Err (Option ASTNode) :=
  match listGetJS ast.nodes id.base with
  | Option.none => Except.error Err.typeError
  | Option.some grp => Except.ok (listGetJS grp id.offset)

/-- `nodeKind` from types.ts: `Object.keys(node)[0]`, i.e. the single key
of the node object. `Object.keys(undefined)` throws, so the undefined case
is handled at call sites. -/
def nodeKind : ASTNode → String
  | ASTNode.missing => "missing"
  | ASTNode.functionDecl _ => "FunctionDecl"
  | ASTNode.translationUnit _ => "TranslationUnit"
  | ASTNode.moduleDecl _ => "ModuleDecl"
  | ASTNode.productTypeDecl _ => "ProductTypeDecl"
  | ASTNode.parameterDecl _ => "ParameterDecl"
  | ASTNode.unknown tag => tag

/-- The six kind tags of the closed TypeScript union. -/
def knownTag (t : String) : Bool :=
  ["missing", "FunctionDecl", "TranslationUnit", "ModuleDecl",
   "ProductTypeDecl", "ParameterDecl"].contains t

/-- A node of one of the six closed-union constructors. -/
def knownNode : ASTNode → Bool
  | ASTNode.unknown _ => false
  | _ => true

/-- A runtime-representable node value: either a closed-union node, or an
unrecognized-tag node whose tag really is outside the known set (the only
values `ASTNode.unknown` is meant to denote). -/
def goodNode : ASTNode → Bool
  | ASTNode.unknown t => !(knownTag t)
  | _ => true

/-- `asModuleDecl` from types.ts via `asX`: returns the payload when the
key is present (`ModuleDecl in node`), else throws `Expected ModuleDecl`.
Applied to `undefined` (a failed lookup), the `in` operator itself throws a
TypeError. -/
def asModuleDecl : Option ASTNode → Except Err ModuleDecl
  | Option.none => Except.error Err.typeError
  | Option.some (ASTNode.moduleDecl d) => Except.ok d
  | Option.some _ => Except.error (Err.expected "ModuleDecl")

/-- `asTranslationUnit` from types.ts (see `asModuleDecl`). -/
def asTranslationUnit : Option ASTNode → Except Err TranslationUnit
  | Option.none => Except.error Err.typeError
  | Option.some (ASTNode.translationUnit d) => Except.ok d
  | Option.some _ => Except.error (Err.expected "TranslationUnit")

/-- `asFunctionDecl` from types.ts (see `asModuleDecl`). -/
def asFunctionDecl : Option ASTNode → Except Err FunctionDecl
  | Option.none => Except.error Err.typeError
  | Option.some (ASTNode.functionDecl d) => Except.ok d
  | Option.some _ => Except.error (Err.expected "FunctionDecl")

/-- `asProductTypeDecl` from types.ts (see `asModuleDecl`). -/
def asProductTypeDecl : Option ASTNode → Except Err ProductTypeDecl
  | Option.none => Except.error Err.typeError
  | Option.some (ASTNode.productTypeDecl d) => Except.ok d
  | Option.some _ => Except.error (Err.expected "ProductTypeDecl")

/-- `asParameterDecl` from types.ts (see `asModuleDecl`). -/
def asParameterDecl : Option ASTNode → Except Err ParameterDecl
  | Option.none => Except.error Err.typeError
  | Option.some (ASTNode.parameterDecl d) => Except.ok d
  | Option.some _ => Except.error (Err.expected "ParameterDecl")

/-- `isModuleDecl` from types.ts via `isX`: key presence, i.e. tag
comparison for single-key node objects. -/
def isModuleDecl (n : ASTNode) : Bool := nodeKind n == "ModuleDecl"

/-- `isTranslationUnit` from types.ts via `isX`. -/
def isTranslationUnit (n : ASTNode) : Bool := nodeKind n == "TranslationUnit"

/-- `isFunctionDecl` from types.ts via `isX`. -/
def isFunctionDecl (n : ASTNode) : Bool := nodeKind n == "FunctionDecl"

/-- `isProductTypeDecl` from types.ts via `isX`. -/
def isProductTypeDecl (n : ASTNode) : Bool := nodeKind n == "ProductTypeDecl"

/-- `siteOf` from types.ts: a switch over `nodeKind(node)`. `ModuleDecl`
and `missing` explicitly return null; the four sited kinds return the
node's own `site`; an unrecognized tag matches no case and the function
falls through, returning `undefined`. Null and undefined are both `none`
here (the caller only tests truthiness). -/
def siteOf : ASTNode → Option SourceRange
  | ASTNode.functionDecl d => Option.some d.site
  | ASTNode.moduleDecl _ => Option.none
  | ASTNode.translationUnit d => Option.some d.site
  | ASTNode.productTypeDecl d => Option.some d.site
  | ASTNode.parameterDecl d => Option.some d.site
  | ASTNode.missing => Option.none
  | ASTNode.unknown _ => Option.none

/-- Does `id` address a stored node (in-bounds base and offset)? -/
def idInBounds (ast : AST) (id : NodeID) : Bool :=
  match listGetJS ast.nodes id.base with
  | Option.none => false
  | Option.some grp => (listGetJS grp id.offset).isSome

/-- The child NodeIDs stored in a node's payload. -/
def childIds : ASTNode → List NodeID
  | ASTNode.functionDecl d => d.parameters
  | ASTNode.translationUnit d => d.decls
  | ASTNode.moduleDecl d => d.sources
  | _ => []

/-- Every NodeID stored anywhere in the snapshot is in bounds (a superset
of the ids referenced during any traversal). -/
def allIdsInBounds (ast : AST) : Bool :=
  ast.modulesIds.all (idInBounds ast) &&
    ast.nodes.all (fun grp => grp.all (fun n => (childIds n).all (idInBounds ast)))

/-- TreeItemIconConfig from vscode-elements; `openAll` models the TS field
`open` (a reserved word in Lean). `uniformIcon` sets all three equal. -/
structure TreeItemIconConfig where
  branch : String
  leaf : String
  openAll : String
deriving DecidableEq, Repr

/-- `uniformIcon` from the webview script. -/
def uniformIcon (iconName : String) : TreeItemIconConfig :=
  ⟨iconName, iconName, iconName⟩

/-- A TreeItem decoration: content, color, appearance. -/
structure Decoration where
  content : String
  color : String
  appearance : String
deriving DecidableEq, Repr

/-- A TreeItem action: actionId, icon, tooltip. -/
structure Action where
  actionId : String
  icon : String
  tooltip : String
deriving DecidableEq, Repr

/-- TreeItem as built by the webview script. `value` holds the serialized
NodeID (or the literal string given in the source, e.g. the synthetic
parameters group's value of `n`). The runtime array produced by mapping
`renderAnyDecl` may contain `undefined` entries, hence
`subItems : List (Option TreeItem)`. -/
inductive TreeItem where
  | mk (icons : TreeItemIconConfig) (label : String) (value : String)
      (tooltip : Option String) (subItems : List (Option TreeItem))
      (decorations : List Decoration) (actions : List Action)

/-- `JSON.stringify` of a NodeID object, as stored in TreeItem.value. -/
def stringifyNodeID (id : NodeID) : String :=
  "\x7b\"base\":" ++ toString id.base ++ ",\"offset\":" ++ toString id.offset ++ "\x7d"

/-- Models `s.split(sep)[last]`, i.e. `split('/').pop()!` for the file-name
portion of a URL: the characters after the last slash (the whole string if
it has no slash). `pop()` on a `split` result is never `undefined` because
`split` always yields at least one element. -/
def lastPathComponent (s : String) : String :=
  String.mk (s.data.foldl (fun acc c => if c = '/' then [] else acc ++ [c]) [])

/-- The color string used by the per-kind decorations. -/
def linkColor : String := "var(--vscode-textLink-foreground)"

/-- The color string used by the missing-node decoration. -/
def errorColor : String := "var(--vscode-errorForeground)"

/-- The highlight-declaration action attached by several renderers
(tooltip typo as in the source). -/
def highlightAction : Action :=
  ⟨"highlightFullDeclaration", "open-preview", "Highligh Declaration"⟩

/-- Fail-fast `Array.prototype.map` with a throwing callback: the first
thrown exception aborts the whole map. -/
def mapE {α β : Type} (g : α → Except Err β) : List α → Except Err (List β)
  | [] => Except.ok []
  | a :: as =>
    match g a with
    | Except.error e => Except.error e
    | Except.ok b =>
      match mapE g as with
      | Except.error e => Except.error e
      | Except.ok bs => Except.ok (b :: bs)

/-- The TreeItem built by `renderModuleDecl` from its resolved payload. -/
def moduleItem (id : NodeID) (d : ModuleDecl) (subs : List TreeItem) : TreeItem :=
  TreeItem.mk (uniformIcon "file-submodule") d.baseName (stringifyNodeID id)
    Option.none (subs.map Option.some) [] []

/-- The TreeItem built by `renderTranslationUnitDecl` from its payload. -/
def tuItem (id : NodeID) (d : TranslationUnit) (subs : List (Option TreeItem)) : TreeItem :=
  TreeItem.mk (uniformIcon "file") (lastPathComponent d.site.fileUrl)
    (stringifyNodeID id) (Option.some d.site.fileUrl) subs [] [highlightAction]

/-- The TreeItem built by `renderMissing`: fixed label Unknown, and a
diagnostic decoration whose content is the raw kind tag of the node. -/
def missingItem (id : NodeID) (tag : String) : TreeItem :=
  TreeItem.mk (uniformIcon "question") "Unknown" (stringifyNodeID id)
    Option.none [] [⟨tag, errorColor, "text"⟩] []

/-- `renderMissing` from the webview script: re-fetches the node to read
its kind tag for the diagnostic decoration. -/
def renderMissing (ast : AST) (id : NodeID) : Except Err TreeItem :=
  match node ast id with
  | Except.error e => Except.error e
  | Except.ok Option.none => Except.error Err.typeError
  | Except.ok (Option.some n) => Except.ok (missingItem id (nodeKind n))

/-- `renderParameterDecl` from the webview script. -/
def renderParameterDecl (ast : AST) (id : NodeID) : Except Err TreeItem :=
  match node ast id with
  | Except.error e => Except.error e
  | Except.ok n? =>
    match asParameterDecl n? with
    | Except.error e => Except.error e
    | Except.ok d =>
      Except.ok (TreeItem.mk (uniformIcon "symbol-parameter")
        (d.identifier ++ " (label: " ++ d.label.getD "<none>" ++ ")")
        (stringifyNodeID id) Option.none []
        [⟨"ParameterDecl", linkColor, "text"⟩] [highlightAction])

/-- `renderProductTypeDecl` from the webview script. -/
def renderProductTypeDecl (ast : AST) (id : NodeID) : Except Err TreeItem :=
  match node ast id with
  | Except.error e => Except.error e
  | Except.ok n? =>
    match asProductTypeDecl n? with
    | Except.error e => Except.error e
    | Except.ok d =>
      Except.ok (TreeItem.mk (uniformIcon "symbol-class") d.name
        (stringifyNodeID id) Option.none []
        [⟨"ProductTypeDecl", linkColor, "text"⟩] [highlightAction])

/-- `renderFunctionDecl` from the webview script: one synthetic parameters
grouping child (whose value is the literal string given in the source). -/
def renderFunctionDecl (ast : AST) (id : NodeID) : Except Err TreeItem :=
  match node ast id with
  | Except.error e => Except.error e
  | Except.ok n? =>
    match asFunctionDecl n? with
    | Except.error e => Except.error e
    | Except.ok d =>
      match mapE (renderParameterDecl ast) d.parameters with
      | Except.error e => Except.error e
      | Except.ok ps =>
        Except.ok (TreeItem.mk (uniformIcon "symbol-function") d.name
          (stringifyNodeID id) Option.none
          [Option.some (TreeItem.mk (uniformIcon "symbol-property") "parameters" "n"
            Option.none (ps.map Option.some) [] [])]
          [⟨"FunctionDecl", linkColor, "text"⟩] [highlightAction])

/-- The three mutually recursive renderers of the webview script, at one
recursion-depth level: `renderModuleDecl`, `renderTranslationUnitDecl` and
`renderAnyDecl`, each taking its recursive collaborators from the previous
depth level `R`. -/
structure RenderFns where
  md : AST → NodeID → Except Err TreeItem
  tu : AST → NodeID → Except Err TreeItem
  anyd : AST → NodeID → Except Err (Option TreeItem)

/-- One depth level of the mutual recursion. `md` is
`renderModuleDecl`: `asModuleDecl(node(ast, moduleId))`, then the sources
mapped through `renderTranslationUnitDecl`. `tu` is
`renderTranslationUnitDecl`: `asTranslationUnit(node(...))`, then the decls
mapped through `renderAnyDecl`. `anyd` is `renderAnyDecl`: a switch on
`nodeKind(node(...))` over the six known tags with NO default case, so an
unrecognized tag falls through and yields `undefined` (ok none). -/
def renderStep (R : RenderFns) : RenderFns where
  md := fun ast id =>
    match node ast id with
    | Except.error e => Except.error e
    | Except.ok n? =>
      match asModuleDecl n? with
      | Except.error e => Except.error e
      | Except.ok d =>
        match mapE (R.tu ast) d.sources with
        | Except.error e => Except.error e
        | Except.ok subs => Except.ok (moduleItem id d subs)
  tu := fun ast id =>
    match node ast id with
    | Except.error e => Except.error e
    | Except.ok n? =>
      match asTranslationUnit n? with
      | Except.error e => Except.error e
      | Except.ok d =>
        match mapE (R.anyd ast) d.decls with
        | Except.error e => Except.error e
        | Except.ok subs => Except.ok (tuItem id d subs)
  anyd := fun ast id =>
    match node ast id with
    | Except.error e => Except.error e
    | Except.ok Option.none => Except.error Err.typeError
    | Except.ok (Option.some n) =>
      match n with
      | ASTNode.moduleDecl _ => (R.md ast id).map Option.some
      | ASTNode.functionDecl _ => (renderFunctionDecl ast id).map Option.some
      | ASTNode.translationUnit _ => (R.tu ast id).map Option.some
      | ASTNode.missing => (renderMissing ast id).map Option.some
      | ASTNode.productTypeDecl _ => (renderProductTypeDecl ast id).map Option.some
      | ASTNode.parameterDecl _ => (renderParameterDecl ast id).map Option.some
      | ASTNode.unknown _ => Except.ok Option.none

/-- The renderer family at every depth budget; budget 0 is exhaustion. -/
def renderFns : Nat → RenderFns
  | 0 => ⟨fun _ _ => Except.error Err.outOfFuel,
          fun _ _ => Except.error Err.outOfFuel,
          fun _ _ => Except.error Err.outOfFuel⟩
  | f + 1 => renderStep (renderFns f)

/-- `renderModuleDecl(ast, moduleId)` with depth budget `f`. -/
def renderModuleDecl (f : Nat) (ast : AST) (id : NodeID) : Except Err TreeItem :=
  (renderFns f).md ast id

/-- `renderTranslationUnitDecl(ast, translationUnitId)` with depth budget `f`. -/
def renderTranslationUnitDecl (f : Nat) (ast : AST) (id : NodeID) : Except Err TreeItem :=
  (renderFns f).tu ast id

/-- `renderAnyDecl(ast, nodeId)` with depth budget `f`. -/
def renderAnyDecl (f : Nat) (ast : AST) (id : NodeID) : Except Err (Option TreeItem) :=
  (renderFns f).anyd ast id

/-- `ASTExplorerView.updateAst`: the new tree data is
`ast.modulesIds.map((moduleId) => renderModuleDecl(ast, moduleId))`. -/
def updateAst (f : Nat) (ast : AST) : Except Err (List TreeItem) :=
  mapE (renderModuleDecl f ast) ast.modulesIds

/-- The closed outbound message set of messages.ts. -/
inductive MessageFromFrontend where
  | openSourceFile (fileUrl : String)
  | highlightFullDeclaration (range : SourceRange)
deriving DecidableEq, Repr

/-- The vsc-select listener of `ASTExplorerView`. Its input here is the
outcome of `JSON.parse(e.detail.value)`: `none` when the parse threw or
produced null (both are caught by the try block, logged, and the handler
returns without a message); `some id` when a NodeID was parsed. The
subsequent `node(this.ast!, nodeId)` lookup is NOT inside the try block:
an out-of-range base throws there, and an out-of-range offset yields
`undefined`, upon which `isTranslationUnit(undefined)` (the `in` operator
on undefined) throws a TypeError. -/
def onSelect (ast : AST) : Option NodeID → Except Err (Option MessageFromFrontend)
  | Option.none => Except.ok Option.none
  | Option.some id =>
    match node ast id with
    | Except.error e => Except.error e
    | Except.ok Option.none => Except.error Err.typeError
    | Except.ok (Option.some n) =>
      match n with
      | ASTNode.translationUnit d =>
        Except.ok (Option.some (MessageFromFrontend.openSourceFile d.site.fileUrl))
      | _ => Except.ok Option.none

/-- The vsc-run-action listener of `ASTExplorerView`, switching on the
actionId. In both known cases `JSON.parse(item.value)` is unprotected:
`none` (an unparseable value) throws a SyntaxError out of the listener.
The openSourceFile case runs `asTranslationUnit(node(this.ast!, id))`; the
highlightFullDeclaration case runs `siteOf(node(this.ast!, id))` (with
`siteOf(undefined)` throwing inside `nodeKind`) and posts a message only
when the site is truthy. Unknown actionIds fall through the switch. -/
def onRunAction (ast : AST) (actionId : String) :
    Option NodeID → Except Err (Option MessageFromFrontend)
  | Option.none =>
    if actionId = "openSourceFile" then Except.error Err.syntaxError
    else if actionId = "highlightFullDeclaration" then Except.error Err.syntaxError
    else Except.ok Option.none
  | Option.some id =>
    if actionId = "openSourceFile" then
      match node ast id with
      | Except.error e => Except.error e
      | Except.ok n? =>
        match asTranslationUnit n? with
        | Except.error e => Except.error e
        | Except.ok d =>
          Except.ok (Option.some (MessageFromFrontend.openSourceFile d.site.fileUrl))
    else if actionId = "highlightFullDeclaration" then
      match node ast id with
      | Except.error e => Except.error e
      | Except.ok Option.none => Except.error Err.typeError
      | Except.ok (Option.some n) =>
        match siteOf n with
        | Option.some r =>
          Except.ok (Option.some (MessageFromFrontend.highlightFullDeclaration r))
        | Option.none => Except.ok Option.none
    else
      Except.ok Option.none

/-- A zero-based vscode.Range as constructed by `new vscode.Range(l1, c1,
l2, c2)`. -/
structure VscodeRange where
  startLine : Int
  startColumn : Int
  endLine : Int
  endColumn : Int
deriving DecidableEq, Repr

/-- `toVscodeRange` from the view provider: every 1-based wire coordinate
is translated down by one. -/
def toVscodeRange (r : SourceRange) : VscodeRange :=
  ⟨r.start.line - 1, r.start.column - 1, r.stop.line - 1, r.stop.column - 1⟩

/-- The observable effect of the host-side message handler: a
`showTextDocument` call on a URI, with an optional selection range. -/
inductive HostEffect where
  | showTextDocument (uri : String) (selection : Option VscodeRange)
deriving DecidableEq, Repr

/-- `onDidReceiveMessage` of `ASTExplorerViewProvider.resolveWebviewView`:
openSourceFile opens the file with no selection; highlightFullDeclaration
opens `range.fileUrl` with selection `toVscodeRange(range)`. -/
def onDidReceiveMessage : MessageFromFrontend → HostEffect
  | MessageFromFrontend.openSourceFile url =>
    HostEffect.showTextDocument url Option.none
  | MessageFromFrontend.highlightFullDeclaration r =>
    HostEffect.showTextDocument r.fileUrl (Option.some (toVscodeRange r))

/-- The result of `JSON.parse(this.astInput.value) as AST` seen with JS
eyes: each of the two fields declared by the `AST` interface is either a
usable array or effectively absent (`none` models a parsed value on which
the field access yields `undefined`, or is itself a throwing access on a
primitive/null — all of which make the subsequent `.map` or indexing throw
a TypeError, exactly as the `none` cases below do). -/
structure RawAst where
  modulesIds : Option (List NodeID)
  nodes : Option (List (List ASTNode))

/-- The astInput input listener of `ASTExplorerView`: only `JSON.parse` is
inside the try block. A parse failure (input `none`) sets the tree data to
`[]` and returns; any parsed value is cast to `AST` unchecked and handed to
`updateAst`, where a value without a usable `modulesIds` array throws a
TypeError that propagates out of the listener (and the previous tree data
is left in place, since the data assignment never executes). A missing
`nodes` array behaves exactly like an empty one: it is only ever indexed,
and both yield a TypeError at `node()`. -/
def onAstInput (f : Nat) : Option RawAst → Except Err (List TreeItem)
  | Option.none => Except.ok []
  | Option.some raw =>
    match raw.modulesIds with
    | Option.none => Except.error Err.typeError
    | Option.some ids => updateAst f ⟨ids, raw.nodes.getD []⟩

/-- Does this id resolve to a ParameterDecl node (what `renderFunctionDecl`
needs of each entry of `parameters` to render without throwing)? -/
def wfParam (ast : AST) (pid : NodeID) : Bool :=
  match node ast pid with
  | Except.ok (Option.some (ASTNode.parameterDecl _)) => true
  | _ => false

/-- Shape condition under which `renderFunctionDecl` cannot throw, given
the function node itself resolved: every parameter resolves to a
ParameterDecl. -/
def wfFunctionDecl (ast : AST) (d : FunctionDecl) : Bool :=
  d.parameters.all (wfParam ast)

/-- The well-formedness mirror of `RenderFns`, one predicate per renderer. -/
structure WfFns where
  md : AST → NodeID → Bool
  tu : AST → NodeID → Bool
  anyd : AST → NodeID → Bool

/-- One depth level of the shape conditions under which the corresponding
renderer cannot throw: a module id must resolve to a ModuleDecl whose
sources all satisfy the TranslationUnit condition; a translation-unit id
must resolve to a TranslationUnit whose decls all satisfy the any-decl
condition; an any-decl id must resolve, and its node's kind decides what
is required below it (unrecognized tags are allowed, provided the tag is
really outside the known set). -/
def wfStep (W : WfFns) : WfFns where
  md := fun ast id =>
    match node ast id with
    | Except.ok (Option.some (ASTNode.moduleDecl d)) => d.sources.all (W.tu ast)
    | _ => false
  tu := fun ast id =>
    match node ast id with
    | Except.ok (Option.some (ASTNode.translationUnit d)) => d.decls.all (W.anyd ast)
    | _ => false
  anyd := fun ast id =>
    match node ast id with
    | Except.ok (Option.some n) =>
      match n with
      | ASTNode.moduleDecl _ => W.md ast id
      | ASTNode.translationUnit _ => W.tu ast id
      | ASTNode.functionDecl d => wfFunctionDecl ast d
      | ASTNode.missing => true
      | ASTNode.productTypeDecl _ => true
      | ASTNode.parameterDecl _ => true
      | ASTNode.unknown t => !(knownTag t)
    | _ => false

/-- The shape-condition family at every depth budget. -/
def wfFns : Nat → WfFns
  | 0 => ⟨fun _ _ => false, fun _ _ => false, fun _ _ => false⟩
  | f + 1 => wfStep (wfFns f)

/-- A snapshot is renderable within depth budget `f`: every entry of
`modulesIds` satisfies the module shape condition at depth `f`. -/
def wfAst (f : Nat) (ast : AST) : Bool :=
  ast.modulesIds.all ((wfFns f).md ast)

/-- Did an Except-computation succeed (no JS exception)? -/
def isOkE {α : Type} : Except Err α → Bool
  | Except.ok _ => true
  | Except.error _ => false

/-- A trivial 1-based source range pointing at file a.src (scenario data). -/
def rangeA : SourceRange := ⟨⟨1, 1⟩, ⟨1, 1⟩, "file:///a.src"⟩

/-- Scenario A snapshot: one module `M` with one TranslationUnit
(`file:///a.src`) containing one FunctionDecl `main` with no parameters. -/
def astA : AST :=
  ⟨[⟨0, 0⟩],
   [[ASTNode.moduleDecl ⟨"M", false, rangeA, [⟨0, 1⟩]⟩,
     ASTNode.translationUnit ⟨[⟨0, 2⟩], rangeA⟩,
     ASTNode.functionDecl ⟨"main", rangeA, []⟩]]⟩

/-- A one-node snapshot with an empty modulesIds list, used to probe the
node store at out-of-range ids. -/
def c1ast : AST := ⟨[], [[ASTNode.missing]]⟩

/-- An in-bounds snapshot whose single modulesIds entry resolves to a node
with an unrecognized kind tag. -/
def c2ast : AST := ⟨[⟨0, 0⟩], [[ASTNode.unknown "Frob"]]⟩

/-- A snapshot storing one node with an unrecognized kind tag. -/
def c4ast : AST := ⟨[], [[ASTNode.unknown "Blob"]]⟩

/-- A snapshot storing one missing node, used to probe stale-id events. -/
def c5ast : AST := ⟨[], [[ASTNode.missing]]⟩

/-- The scenario C source range: start 8:8, end 8:18, in file b.src. -/
def rangeC : SourceRange := ⟨⟨8, 8⟩, ⟨8, 18⟩, "file:///b.src"⟩

/-- A snapshot storing a single ParameterDecl sited at `rangeC`. -/
def c7ast : AST := ⟨[], [[ASTNode.parameterDecl ⟨rangeC, Option.some "p", "x"⟩]]⟩

/-- A snapshot storing a single TranslationUnit sited at `rangeA`. -/
def c8ast : AST := ⟨[], [[ASTNode.translationUnit ⟨[], rangeA⟩]]⟩

/-- A snapshot whose single modulesIds entry resolves to a missing node
(not a ModuleDecl). -/
def c10ast : AST := ⟨[⟨0, 0⟩], [[ASTNode.missing]]⟩

theorem isOkE_iff {α : Type} (e : Except Err α) : isOkE e = true ↔ ∃ a, e = Except.ok a := by
  cases e <;> simp [isOkE]

theorem isOkE_map {α β : Type} (g : α → β) (e : Except Err α) :
    isOkE (e.map g) = isOkE e := by
  cases e <;> simp [isOkE, Except.map]

theorem mapE_ok_of_all {α β : Type} (g : α → Except Err β) (p : α → Bool)
    (h : ∀ a, p a = true → isOkE (g a) = true) :
    ∀ l : List α, l.all p = true → isOkE (mapE g l) = true := by
  intro l
  induction l with
  | nil => intro _; rfl
  | cons a as ih =>
    intro hall
    rw [List.all_cons, Bool.and_eq_true] at hall
    obtain ⟨b, hb⟩ := (isOkE_iff _).1 (h a hall.1)
    obtain ⟨bs, hbs⟩ := (isOkE_iff _).1 (ih hall.2)
    simp [mapE, hb, hbs, isOkE]

theorem listGetJS_eq_none {α : Type} (l : List α) (i : Int) :
    listGetJS l i = Option.none ↔ ¬ (0 ≤ i ∧ i < (l.length : Int)) := by
  unfold listGetJS
  by_cases h : 0 ≤ i
  · rw [if_pos h, List.get?_eq_none]
    omega
  · rw [if_neg h]
    simp
    omega

theorem listGetJS_some_bounds {α : Type} (l : List α) (i : Int) (a : α)
    (h : listGetJS l i = Option.some a) : 0 ≤ i ∧ i < (l.length : Int) := by
  by_contra hc
  rw [← listGetJS_eq_none] at hc
  rw [h] at hc
  exact Option.noConfusion hc

theorem renderParameterDecl_isOk (ast : AST) (pid : NodeID)
    (h : wfParam ast pid = true) : isOkE (renderParameterDecl ast pid) = true := by
  unfold wfParam at h
  unfold renderParameterDecl
  cases hn : node ast pid with
  | error e => rw [hn] at h; simp at h
  | ok n? =>
    rw [hn] at h
    cases n? with
    | none => simp at h
    | some n =>
      cases n <;> simp at h
      simp [asParameterDecl, isOkE]

theorem renderMissing_isOk (ast : AST) (id : NodeID) (n : ASTNode)
    (hn : node ast id = Except.ok (Option.some n)) :
    isOkE (renderMissing ast id) = true := by
  unfold renderMissing
  rw [hn]
  rfl

theorem renderProductTypeDecl_isOk (ast : AST) (id : NodeID) (d : ProductTypeDecl)
    (hn : node ast id = Except.ok (Option.some (ASTNode.productTypeDecl d))) :
    isOkE (renderProductTypeDecl ast id) = true := by
  unfold renderProductTypeDecl
  rw [hn]
  rfl

theorem renderFunctionDecl_isOk (ast : AST) (id : NodeID) (d : FunctionDecl)
    (hn : node ast id = Except.ok (Option.some (ASTNode.functionDecl d)))
    (h : wfFunctionDecl ast d = true) :
    isOkE (renderFunctionDecl ast id) = true := by
  unfold renderFunctionDecl
  rw [hn]
  have hps := mapE_ok_of_all (renderParameterDecl ast) (wfParam ast)
    (fun a ha => renderParameterDecl_isOk ast a ha) d.parameters h
  obtain ⟨ps, hps⟩ := (isOkE_iff _).1 hps
  simp [asFunctionDecl, hps, isOkE]

theorem wf_render_isOk (f : Nat) :
    (∀ ast id, (wfFns f).md ast id = true → isOkE ((renderFns f).md ast id) = true)
    ∧ (∀ ast id, (wfFns f).tu ast id = true → isOkE ((renderFns f).tu ast id) = true)
    ∧ (∀ ast id, (wfFns f).anyd ast id = true → isOkE ((renderFns f).anyd ast id) = true) := by
  induction f with
  | zero =>
    refine ⟨?_, ?_, ?_⟩ <;> · intro ast id h; simp [wfFns] at h
  | succ f ih =>
    obtain ⟨ihm, iht, iha⟩ := ih
    refine ⟨?_, ?_, ?_⟩
    · intro ast id h
      simp only [wfFns, wfStep] at h
      simp only [renderFns, renderStep]
      cases hn : node ast id with
      | error e => rw [hn] at h; simp at h
      | ok n? =>
        rw [hn] at h
        cases n? with
        | none => simp at h
        | some n =>
          cases n <;> simp at h
          case moduleDecl d =>
            have hsubs := mapE_ok_of_all ((renderFns f).tu ast) ((wfFns f).tu ast)
              (fun a ha => iht ast a ha) d.sources (List.all_eq_true.2 h)
            obtain ⟨subs, hsubs⟩ := (isOkE_iff _).1 hsubs
            simp [asModuleDecl, hsubs, isOkE]
    · intro ast id h
      simp only [wfFns, wfStep] at h
      simp only [renderFns, renderStep]
      cases hn : node ast id with
      | error e => rw [hn] at h; simp at h
      | ok n? =>
        rw [hn] at h
        cases n? with
        | none => simp at h
        | some n =>
          cases n <;> simp at h
          case translationUnit d =>
            have hsubs := mapE_ok_of_all ((renderFns f).anyd ast) ((wfFns f).anyd ast)
              (fun a ha => iha ast a ha) d.decls (List.all_eq_true.2 h)
            obtain ⟨subs, hsubs⟩ := (isOkE_iff _).1 hsubs
            simp [asTranslationUnit, hsubs, isOkE]
    · intro ast id h
      simp only [wfFns, wfStep] at h
      simp only [renderFns, renderStep]
      cases hn : node ast id with
      | error e => rw [hn] at h; simp at h
      | ok n? =>
        rw [hn] at h
        cases n? with
        | none => simp at h
        | some n =>
          cases n
          case missing =>
            rw [isOkE_map]
            exact renderMissing_isOk ast id _ hn
          case functionDecl d =>
            simp at h
            rw [isOkE_map]
            exact renderFunctionDecl_isOk ast id d hn h
          case translationUnit d =>
            simp at h
            rw [isOkE_map]
            exact iht ast id h
          case moduleDecl d =>
            simp at h
            rw [isOkE_map]
            exact ihm ast id h
          case productTypeDecl d =>
            rw [isOkE_map]
            exact renderProductTypeDecl_isOk ast id d hn
          case parameterDecl d =>
            rw [isOkE_map]
            apply renderParameterDecl_isOk
            unfold wfParam
            rw [hn]
          case unknown t => rfl

theorem c2ast_never_ok (f : Nat) : isOkE (updateAst f c2ast) = false := by
  cases f with
  | zero => rfl
  | succ f => rfl

end HyloAst


namespace HyloAst

/-- C1 (amended): the node-store lookup is unchecked. A base outside the
group bounds makes `node` throw a TypeError (indexing `undefined`), not a
distinct out-of-range error; an in-bounds base with an out-of-range offset
makes `node` return `undefined` (no error at all); an in-bounds pair
returns the stored node; an out-of-range id never yields a node value, in
particular never a Missing node. -/
theorem c1_node_unchecked (ast : AST) (id : NodeID) :
    (¬ (0 ≤ id.base ∧ id.base < (ast.nodes.length : Int)) →
      node ast id = Except.error Err.typeError)
    ∧ (∀ g : List ASTNode, listGetJS ast.nodes id.base = Option.some g →
        ¬ (0 ≤ id.offset ∧ id.offset < (g.length : Int)) →
        node ast id = Except.ok Option.none)
    ∧ (∀ g n, listGetJS ast.nodes id.base = Option.some g →
        listGetJS g id.offset = Option.some n →
        node ast id = Except.ok (Option.some n))
    ∧ (idInBounds ast id = false → ∀ m, node ast id ≠ Except.ok (Option.some m)) := by
  refine ⟨?_, ?_, ?_, ?_⟩
  · intro hb
    unfold node
    rw [(listGetJS_eq_none ast.nodes id.base).2 hb]
  · intro g hgg hoff
    unfold node
    rw [hgg]
    show Except.ok (listGetJS g id.offset) = Except.ok Option.none
    rw [(listGetJS_eq_none g id.offset).2 hoff]
  · intro g n hgg hn
    unfold node
    rw [hgg]
    show Except.ok (listGetJS g id.offset) = Except.ok (Option.some n)
    rw [hn]
  · intro hib m
    unfold idInBounds at hib
    unfold node
    cases hgg : listGetJS ast.nodes id.base with
    | none =>
      exact fun h => Except.noConfusion h
    | some g =>
      rw [hgg] at hib
      have hib' : (listGetJS g id.offset).isSome = false := hib
      show Except.ok (listGetJS g id.offset) ≠ Except.ok (Option.some m)
      cases ho : listGetJS g id.offset with
      | none => simp
      | some m' => rw [ho] at hib'; simp at hib'

/-- C1 counterexample: id (0,5) is out of range in `c1ast` (group 0 has a
single node), yet `node` succeeds and returns `undefined` (ok none) instead
of failing with an out-of-range error. -/
theorem c1_counterexample :
    idInBounds c1ast ⟨0, 5⟩ = false ∧ node c1ast ⟨0, 5⟩ = Except.ok Option.none :=
  ⟨rfl, rfl⟩

/-- C1 witness: the amended theorem applied at a concrete out-of-range
base. -/
theorem c1_witness : node c1ast ⟨7, 0⟩ = Except.error Err.typeError :=
  (c1_node_unchecked c1ast ⟨7, 0⟩).1 (by decide)

end HyloAst

namespace HyloAst

theorem mapE_cons {α β : Type} (g : α → Except Err β) (a : α) (as : List α) (b : β)
    (h : g a = Except.ok b) :
    mapE g (a :: as) = (mapE g as).map (fun bs => b :: bs) := by
  simp only [mapE]
  rw [h]
  cases hm : mapE g as <;> simp [Except.map]

/-- C2 (amended): projection of an in-bounds snapshot does terminate
without throwing whenever the snapshot satisfies the recursive shape
condition `wfAst` at some depth budget: every modulesIds entry resolves to
a ModuleDecl, its sources to TranslationUnits, every decl entry resolves
(with FunctionDecl parameters resolving to ParameterDecls), and the
reference structure reaches no deeper than the budget (ruling out cycles).
Unrecognized kind tags are tolerated only in decls positions. -/
theorem c2_projection_total (f : Nat) (ast : AST) (h : wfAst f ast = true) :
    isOkE (updateAst f ast) = true := by
  unfold updateAst
  unfold wfAst at h
  exact mapE_ok_of_all (renderModuleDecl f ast) ((wfFns f).md ast)
    (fun a ha => (wf_render_isOk f).1 ast a ha) ast.modulesIds h

/-- C2 counterexample: `c2ast` is a snapshot in which every stored NodeID
is in bounds, yet projection fails (with a kind-mismatch exception from
`asModuleDecl`) for every depth budget, because its modulesIds entry
resolves to a node with an unrecognized kind tag — refuting the claim that
projection of an in-bounds snapshot never throws even with unknown kinds. -/
theorem c2_counterexample :
    allIdsInBounds c2ast = true
    ∧ ¬ ∃ ts f, updateAst f c2ast = Except.ok ts := by
  refine ⟨rfl, ?_⟩
  rintro ⟨ts, f, hf⟩
  have h := c2ast_never_ok f
  rw [hf] at h
  exact Bool.noConfusion h

/-- C2 witness: the amended theorem applied to the scenario-A snapshot at
depth budget 3. -/
theorem c2_witness : wfAst 3 astA = true ∧ isOkE (updateAst 3 astA) = true :=
  ⟨by decide, c2_projection_total 3 astA (by decide)⟩

/-- C3 (amended): an input string that is not valid JSON yields an empty
projected tree and no exception (the parse failure is caught); but an
input that parses to a value not matching the AST shape (no usable
modulesIds array) makes the handler throw a TypeError that propagates out
of the input-handling boundary, and the previous tree data is then
retained, not replaced. An input parsing to the AST shape is handed to
updateAst unvalidated. -/
theorem c3_input_boundary (f : Nat) (p : Option RawAst) :
    (p = Option.none → onAstInput f p = Except.ok [])
    ∧ (∀ raw, p = Option.some raw → raw.modulesIds = Option.none →
        onAstInput f p = Except.error Err.typeError)
    ∧ (∀ raw ids, p = Option.some raw → raw.modulesIds = Option.some ids →
        onAstInput f p = updateAst f ⟨ids, raw.nodes.getD []⟩) := by
  refine ⟨?_, ?_, ?_⟩
  · intro hp
    rw [hp]
    rfl
  · intro raw hp hm
    subst hp
    show (match raw.modulesIds with
      | Option.none => Except.error Err.typeError
      | Option.some ids => updateAst f ⟨ids, raw.nodes.getD []⟩)
      = Except.error Err.typeError
    rw [hm]
  · intro raw ids hp hm
    subst hp
    show (match raw.modulesIds with
      | Option.none => Except.error Err.typeError
      | Option.some ids => updateAst f ⟨ids, raw.nodes.getD []⟩)
      = updateAst f ⟨ids, raw.nodes.getD []⟩
    rw [hm]

/-- C3 counterexample: a parsed top-level value that does not match the
AST shape (both fields unusable, e.g. the JSON value 5 or an empty object)
makes the input handler throw a TypeError instead of producing an empty
tree — refuting the claim that no exception propagates out of the
input-handling boundary for any non-AST input. -/
theorem c3_counterexample :
    onAstInput 0 (Option.some ⟨Option.none, Option.none⟩) = Except.error Err.typeError := rfl

/-- C3 witness: the amended theorem applied to the caught parse-failure
input. -/
theorem c3_witness : onAstInput 5 Option.none = Except.ok [] :=
  (c3_input_boundary 5 Option.none).1 rfl

/-- C4 (amended): a node of kind missing is rendered by renderAnyDecl as
the fixed label Unknown with a diagnostic decoration carrying the raw kind
tag, and never throws, so it never aborts the map over its sibling decls
(the map just prepends its item); but a node with an unrecognized kind tag
is NOT routed to the Unknown rendering: renderAnyDecl falls through its
switch and yields undefined (ok none) — also without throwing, so siblings
are likewise unaffected. -/
theorem c4_missing_vs_unknown (f : Nat) (ast : AST) (id : NodeID) :
    (node ast id = Except.ok (Option.some ASTNode.missing) →
      renderAnyDecl (f + 1) ast id = Except.ok (Option.some (missingItem id "missing"))
      ∧ ∀ rest, mapE (renderAnyDecl (f + 1) ast) (id :: rest)
          = (mapE (renderAnyDecl (f + 1) ast) rest).map
              (fun bs => Option.some (missingItem id "missing") :: bs))
    ∧ (∀ t, node ast id = Except.ok (Option.some (ASTNode.unknown t)) →
        knownTag t = false →
        renderAnyDecl (f + 1) ast id = Except.ok Option.none
        ∧ ∀ rest, mapE (renderAnyDecl (f + 1) ast) (id :: rest)
            = (mapE (renderAnyDecl (f + 1) ast) rest).map
                (fun bs => Option.none :: bs)) := by
  constructor
  · intro hn
    have hr : renderAnyDecl (f + 1) ast id
        = Except.ok (Option.some (missingItem id "missing")) := by
      unfold renderAnyDecl
      simp only [renderFns, renderStep]
      rw [hn]
      show (renderMissing ast id).map Option.some
          = Except.ok (Option.some (missingItem id "missing"))
      unfold renderMissing
      rw [hn]
      rfl
    exact ⟨hr, fun rest => mapE_cons (renderAnyDecl (f + 1) ast) id rest _ hr⟩
  · intro t hn hk
    have hr : renderAnyDecl (f + 1) ast id = Except.ok Option.none := by
      unfold renderAnyDecl
      simp only [renderFns, renderStep]
      rw [hn]
    exact ⟨hr, fun rest => mapE_cons (renderAnyDecl (f + 1) ast) id rest _ hr⟩

/-- C4 counterexample: the node at (0,0) in `c4ast` carries the
unrecognized kind tag Blob, and renderAnyDecl yields undefined (ok none)
for it rather than an item labelled Unknown with a diagnostic annotation —
refuting the claim for unrecognized tags (it holds only for missing). -/
theorem c4_counterexample :
    knownTag "Blob" = false
    ∧ node c4ast ⟨0, 0⟩ = Except.ok (Option.some (ASTNode.unknown "Blob"))
    ∧ renderAnyDecl 1 c4ast ⟨0, 0⟩ = Except.ok Option.none :=
  ⟨rfl, rfl, rfl⟩

/-- C4 witness: the amended theorem applied to a concrete missing node. -/
theorem c4_witness :
    renderAnyDecl 1 c5ast ⟨0, 0⟩ = Except.ok (Option.some (missingItem ⟨0, 0⟩ "missing")) :=
  ((c4_missing_vs_unknown 0 c5ast ⟨0, 0⟩).1 rfl).1

end HyloAst

namespace HyloAst

theorem actionIdsDiffer : ("highlightFullDeclaration" : String) ≠ "openSourceFile" := by
  decide

/-- C5 (amended): only a select event whose payload fails to parse (or
parses to null) fails silently with no message. An event carrying a
NodeID that is not resolvable in the current snapshot is NOT silent: the
unguarded `node` lookup (or the subsequent use of its undefined result)
throws a TypeError out of the listener, for the select listener and for
both known actions; an action event with an unparseable payload throws a
SyntaxError (its JSON.parse is not wrapped at all). No message is emitted
in any of these cases. -/
theorem c5_stale_events (ast : AST) (id : NodeID) :
    (onSelect ast Option.none = Except.ok Option.none)
    ∧ (∀ e, node ast id = Except.error e → onSelect ast (Option.some id) = Except.error e)
    ∧ (node ast id = Except.ok Option.none →
        onSelect ast (Option.some id) = Except.error Err.typeError)
    ∧ (∀ e, node ast id = Except.error e →
        onRunAction ast "openSourceFile" (Option.some id) = Except.error e
        ∧ onRunAction ast "highlightFullDeclaration" (Option.some id) = Except.error e)
    ∧ (node ast id = Except.ok Option.none →
        onRunAction ast "openSourceFile" (Option.some id) = Except.error Err.typeError
        ∧ onRunAction ast "highlightFullDeclaration" (Option.some id) = Except.error Err.typeError)
    ∧ (onRunAction ast "openSourceFile" Option.none = Except.error Err.syntaxError
        ∧ onRunAction ast "highlightFullDeclaration" Option.none = Except.error Err.syntaxError) := by
  refine ⟨rfl, ?_, ?_, ?_, ?_, ?_, ?_⟩
  · intro e hn
    simp only [onSelect]
    rw [hn]
  · intro hn
    simp only [onSelect]
    rw [hn]
  · intro e hn
    constructor
    · simp only [onRunAction]
      rw [if_true, hn]
    · simp only [onRunAction]
      rw [if_neg actionIdsDiffer, if_true, hn]
  · intro hn
    constructor
    · simp only [onRunAction]
      rw [if_true, hn]
      rfl
    · simp only [onRunAction]
      rw [if_neg actionIdsDiffer, if_true, hn]
  · rfl
  · rfl

/-- C5 counterexample: a select event carrying the well-formed but
unresolvable NodeID (0,9) against `c5ast` throws a TypeError out of the
listener instead of completing silently. -/
theorem c5_counterexample :
    idInBounds c5ast ⟨0, 9⟩ = false
    ∧ onSelect c5ast (Option.some ⟨0, 9⟩) = Except.error Err.typeError :=
  ⟨rfl, rfl⟩

/-- C5 witness: the amended theorem applied at a concrete stale id for the
highlight action. -/
theorem c5_witness :
    onRunAction c5ast "highlightFullDeclaration" (Option.some ⟨0, 9⟩)
      = Except.error Err.typeError :=
  ((c5_stale_events c5ast ⟨0, 9⟩).2.2.2.2.1 rfl).2

/-- C6: for every well-formed (closed-union) node, siteOf is absent
exactly for the ModuleDecl and missing kinds, and for each of the four
sited kinds it returns the node's own site. -/
theorem c6_siteOf (n : ASTNode) (hk : knownNode n = true) :
    (siteOf n = Option.none ↔ (nodeKind n = "ModuleDecl" ∨ nodeKind n = "missing"))
    ∧ (∀ d, n = ASTNode.functionDecl d → siteOf n = Option.some d.site)
    ∧ (∀ d, n = ASTNode.translationUnit d → siteOf n = Option.some d.site)
    ∧ (∀ d, n = ASTNode.productTypeDecl d → siteOf n = Option.some d.site)
    ∧ (∀ d, n = ASTNode.parameterDecl d → siteOf n = Option.some d.site) := by
  cases n <;> simp [siteOf, nodeKind, knownNode] at hk ⊢

/-- C6 witness: the theorem applied to a concrete ModuleDecl node and a
concrete ParameterDecl node. -/
theorem c6_witness :
    siteOf (ASTNode.moduleDecl ⟨"M", false, rangeA, []⟩) = Option.none
    ∧ siteOf (ASTNode.parameterDecl ⟨rangeC, Option.some "p", "x"⟩) = Option.some rangeC :=
  ⟨(c6_siteOf (ASTNode.moduleDecl ⟨"M", false, rangeA, []⟩) rfl).1.mpr (Or.inl rfl),
   (c6_siteOf (ASTNode.parameterDecl ⟨rangeC, Option.some "p", "x"⟩) rfl).2.2.2.2
     ⟨rangeC, Option.some "p", "x"⟩ rfl⟩

/-- C7: invoking the highlight-declaration action on a resolvable node
emits a HighlightFullDeclaration message carrying exactly siteOf(node)
when that is present, and no message at all when it is absent. -/
theorem c7_highlight_iff_site (ast : AST) (id : NodeID) (n : ASTNode)
    (hres : node ast id = Except.ok (Option.some n)) (hg : goodNode n = true) :
    onRunAction ast "highlightFullDeclaration" (Option.some id)
      = Except.ok ((siteOf n).map MessageFromFrontend.highlightFullDeclaration) := by
  simp only [onRunAction]
  rw [if_neg actionIdsDiffer, if_true, hres]
  show (match siteOf n with
    | Option.some r => Except.ok (Option.some (MessageFromFrontend.highlightFullDeclaration r))
    | Option.none => Except.ok Option.none)
    = Except.ok ((siteOf n).map MessageFromFrontend.highlightFullDeclaration)
  cases hs : siteOf n <;> rfl

/-- C7 witness: the theorem applied to the scenario-C ParameterDecl,
emitting its exact range, and to a node with absent site, emitting
nothing. -/
theorem c7_witness :
    onRunAction c7ast "highlightFullDeclaration" (Option.some ⟨0, 0⟩)
      = Except.ok (Option.some (MessageFromFrontend.highlightFullDeclaration rangeC))
    ∧ onRunAction c5ast "highlightFullDeclaration" (Option.some ⟨0, 0⟩)
      = Except.ok Option.none :=
  ⟨c7_highlight_iff_site c7ast ⟨0, 0⟩ (ASTNode.parameterDecl ⟨rangeC, Option.some "p", "x"⟩) rfl rfl,
   c7_highlight_iff_site c5ast ⟨0, 0⟩ ASTNode.missing rfl rfl⟩

/-- C8: a plain selection on a resolvable tree entry emits an
OpenSourceFile message carrying the node's site.fileUrl exactly when the
node is a TranslationUnit; selection on any other kind emits no message. -/
theorem c8_select_translation_unit (ast : AST) (id : NodeID) (n : ASTNode)
    (hres : node ast id = Except.ok (Option.some n)) (hg : goodNode n = true) :
    (∀ d, n = ASTNode.translationUnit d →
      onSelect ast (Option.some id)
        = Except.ok (Option.some (MessageFromFrontend.openSourceFile d.site.fileUrl)))
    ∧ (isTranslationUnit n = false → onSelect ast (Option.some id) = Except.ok Option.none) := by
  constructor
  · intro d hd
    subst hd
    simp only [onSelect]
    rw [hres]
  · intro hnt
    simp only [onSelect]
    rw [hres]
    cases n <;> simp [isTranslationUnit, nodeKind] at hnt ⊢

/-- C8 witness: the theorem applied to the scenario-B TranslationUnit
(message emitted) and to a missing node (no message). -/
theorem c8_witness :
    onSelect c8ast (Option.some ⟨0, 0⟩)
      = Except.ok (Option.some (MessageFromFrontend.openSourceFile "file:///a.src"))
    ∧ onSelect c5ast (Option.some ⟨0, 0⟩) = Except.ok Option.none :=
  ⟨(c8_select_translation_unit c8ast ⟨0, 0⟩ (ASTNode.translationUnit ⟨[], rangeA⟩) rfl rfl).1
      ⟨[], rangeA⟩ rfl,
   (c8_select_translation_unit c5ast ⟨0, 0⟩ ASTNode.missing rfl rfl).2 rfl⟩

/-- C9: the host translates every HighlightFullDeclaration range from the
1-based wire coordinates to a zero-based editor selection by subtracting
exactly one from each of the four coordinates; the scenario-C range
(8:8)-(8:18) becomes the zero-based span (7,7)-(7,17). -/
theorem c9_host_zero_based (r : SourceRange) :
    onDidReceiveMessage (MessageFromFrontend.highlightFullDeclaration r)
      = HostEffect.showTextDocument r.fileUrl
          (Option.some ⟨r.start.line - 1, r.start.column - 1, r.stop.line - 1, r.stop.column - 1⟩)
    ∧ toVscodeRange rangeC = ⟨7, 7, 7, 17⟩ :=
  ⟨rfl, rfl⟩

/-- C10: projection imposes the top-two-level shape precondition: an
in-bounds, resolvable node that is not a ModuleDecl makes renderModuleDecl
throw the kind-mismatch error of asModuleDecl (Expected ModuleDecl), a
resolvable node that is not a TranslationUnit makes
renderTranslationUnitDecl throw Expected TranslationUnit, and a snapshot
whose modulesIds entry resolves to a non-ModuleDecl makes the whole
projection throw instead of routing the node to the Unknown rendering. -/
theorem c10_top_level_kind_errors (f : Nat) (ast : AST) (id : NodeID) (n : ASTNode)
    (hres : node ast id = Except.ok (Option.some n)) (hg : goodNode n = true) :
    (isModuleDecl n = false →
      renderModuleDecl (f + 1) ast id = Except.error (Err.expected "ModuleDecl"))
    ∧ (isTranslationUnit n = false →
      renderTranslationUnitDecl (f + 1) ast id = Except.error (Err.expected "TranslationUnit"))
    ∧ (isModuleDecl n = false → ast.modulesIds = [id] →
      updateAst (f + 1) ast = Except.error (Err.expected "ModuleDecl")) := by
  have hmd : isModuleDecl n = false →
      renderModuleDecl (f + 1) ast id = Except.error (Err.expected "ModuleDecl") := by
    intro hm
    unfold renderModuleDecl
    simp only [renderFns, renderStep]
    rw [hres]
    cases n <;> simp [isModuleDecl, nodeKind] at hm ⊢ <;> rfl
  refine ⟨hmd, ?_, ?_⟩
  · intro ht
    unfold renderTranslationUnitDecl
    simp only [renderFns, renderStep]
    rw [hres]
    cases n <;> simp [isTranslationUnit, nodeKind] at ht ⊢ <;> rfl
  · intro hm hids
    unfold updateAst
    rw [hids]
    rw [mapE]
    rw [hmd hm]

/-- C10 witness: the theorem applied to `c10ast`, whose single modulesIds
entry resolves to a missing node: projection throws Expected ModuleDecl. -/
theorem c10_witness :
    updateAst 1 c10ast = Except.error (Err.expected "ModuleDecl") :=
  (c10_top_level_kind_errors 0 c10ast ⟨0, 0⟩ ASTNode.missing rfl rfl).2.2 rfl rfl

end HyloAst
